import Mathlib

/-!
Shallow embedding of the wiki server in `wiki.go`: the `Page` data model,
the flat-file page store (`save` / `loadpage`), the path-validation regex
`validPath = ^/(save|edit|view)/([a-zA-Z0-9]+)$` with `getTitle`, and the
three request handlers (`viewHandler`, `editHandler`, `saveHandler`).

The file system is modelled as an association list from filename to file
data; fallible I/O primitives take an explicit failure oracle (a map from
filename to an optional error message) standing for disk errors.
-/

namespace Wiki

/-- Embeds the Go struct `Page { Title string; Body []byte }`.
The body is a raw byte sequence, modelled as a list of naturals. -/
structure Page where
  Title : String
  Body : List Nat
  deriving DecidableEq, Repr

/-- Data stored for one file: its content bytes and its permission mode
(the mode records the `perm` argument of the write that produced the file;
every write in this program uses `0o600`). -/
structure FileData where
  content : List Nat
  mode : Nat
  deriving DecidableEq, Repr

/-- The file system state: an association list from filename to file data. -/
abbrev FS := List (String × FileData)

/-- Looks a filename up in the file system (models opening a file for read). -/
def fsRead : FS → String → Option FileData
  | [], _ => none
  | (n, d) :: rest, name => if n = name then some d else fsRead rest name

/-- Replaces the content stored under `name`, or appends a fresh entry when
the file is absent (models create-or-truncate on write). -/
def fsWrite : FS → String → List Nat → Nat → FS
  | [], name, data, perm => [(name, ⟨data, perm⟩)]
  | (n, d) :: rest, name, data, perm =>
    if n = name then (n, ⟨data, perm⟩) :: rest
    else (n, d) :: fsWrite rest name data perm

/-- Embeds `ioutil.WriteFile(name, data, perm)`: writes `data` to the file
`name`, creating it if absent and overwriting it if present; the oracle
`wfail` injects the underlying disk errors (`some e` means the write to
that filename fails with message `e`). -/
def goWriteFile (wfail : String → Option String) (fs : FS) (name : String)
    (data : List Nat) (perm : Nat) : Except String FS :=
  match wfail name with
  | some e => Except.error e
  | none => Except.ok (fsWrite fs name data perm)

/-- Embeds `ioutil.ReadFile(name)`: returns the file's bytes, or an error
when the file is absent or the oracle `rfail` marks it unreadable. -/
def goReadFile (rfail : String → Option String) (fs : FS) (name : String) :
    Except String (List Nat) :=
  match rfail name with
  | some e => Except.error e
  | none =>
    match fsRead fs name with
    | none => Except.error ("open " ++ name ++ ": no such file or directory")
    | some d => Except.ok d.content

/-- The on-disk filename of a page title, `title + ".txt"`, as built in
both `save` (line 25) and `loadpage` (line 30) of `wiki.go`. -/
def pageFilename (title : String) : String := title ++ ".txt"

/-- Embeds `func (p *Page) save() error`: writes `p.Body` to
`p.Title + ".txt"` with permission `0600` via `ioutil.WriteFile`. -/
def Page.save (wfail : String → Option String) (fs : FS) (p : Page) :
    Except String FS :=
  goWriteFile wfail fs (pageFilename p.Title) p.Body 0o600

/-- Embeds `func loadpage(title string) (*Page, error)`: reads
`title + ".txt"`; on success returns a `Page` with that title and the file
bytes as body, otherwise propagates the read error. -/
def loadpage (rfail : String → Option String) (fs : FS) (title : String) :
    Except String Page :=
  match goReadFile rfail fs (pageFilename title) with
  | Except.error e => Except.error e
  | Except.ok body => Except.ok ⟨title, body⟩

/-- Character class `[a-zA-Z0-9]` of the title capture group. -/
def isTitleChar (c : Char) : Bool :=
  (decide ('a' ≤ c) && decide (c ≤ 'z')) ||
  (decide ('A' ≤ c) && decide (c ≤ 'Z')) ||
  (decide ('0' ≤ c) && decide (c ≤ '9'))

/-- A valid page title: one or more characters of `[a-zA-Z0-9]`. -/
def validTitle (t : String) : Bool :=
  !t.data.isEmpty && t.data.all isTitleChar

/-- Consumes the literal character sequence `lit` from the front of `cs`,
returning the remainder; fails when `cs` does not start with `lit`. -/
def dropLit : List Char → List Char → Option (List Char)
  | [], cs => some cs
  | l :: ls, c :: cs => if c = l then dropLit ls cs else none
  | _ :: _, [] => none

/-- One alternative of the regex `^/(verb)/([a-zA-Z0-9]+)$`: the path must
be `/verb/` followed by a nonempty run of title characters reaching the end
of the string; on a match, returns the pair of capture groups
`(m[1], m[2]) = (verb, title)`. -/
def tryVerb (v : String) (path : String) : Option (String × String) :=
  match dropLit ("/" ++ v ++ "/").data path.data with
  | none => none
  | some t =>
    if !t.isEmpty && t.all isTitleChar then some (v, String.mk t) else none

/-- Embeds `validPath.FindStringSubmatch(path)` for the anchored regex
`validPath = ^/(save|edit|view)/([a-zA-Z0-9]+)$` (line 58 of `wiki.go`):
`some (verb, title)` stands for the submatch slice `[m[0], verb, title]`,
`none` for a nil result. The three alternatives are tried in the regex's
order; their literal prefixes are mutually exclusive. -/
def validPathSubmatch (path : String) : Option (String × String) :=
  match tryVerb "save" path with
  | some m => some m
  | none =>
    match tryVerb "edit" path with
    | some m => some m
    | none => tryVerb "view" path

/-- The spec's path grammar, written from its words: the path is exactly
`/<verb>/<title>` where `<verb>` is one of `save`, `edit`, `view` and
`<title>` is one or more ASCII letters or digits. Used to compare the
spec's grammar with the embedded regex matcher. -/
def GrammarMatch (path : String) : Prop :=
  ∃ v t : String, (v = "save" ∨ v = "edit" ∨ v = "view") ∧
    t.data ≠ [] ∧ t.data.all isTitleChar = true ∧ path = "/" ++ v ++ "/" ++ t

/-- An HTTP request as the handlers see it: the method, the URL path, and
the form values (`r.FormValue` consults this map; `none` means the field is
absent from the request). -/
structure Request where
  method : String
  path : String
  form : String → Option String

/-- Embeds `r.FormValue(key)`: the field's value, or the empty string when
the field is absent. -/
def formValue (r : Request) (key : String) : String :=
  (r.form key).getD ""

/-- One write to the `http.ResponseWriter`, in the order performed. -/
inductive Response where
  /-- Output of `http.NotFound(w, r)`: a 404 with the standard body. -/
  | notFound : Response
  /-- Output of `http.Error(w, msg, code)`. -/
  | httpError (msg : String) (code : Nat) : Response
  /-- Output of `http.Redirect(w, r, loc, code)`. -/
  | redirect (loc : String) (code : Nat) : Response
  /-- Output of `templates.ExecuteTemplate(w, tmpl + ".html", p)`. -/
  | render (tmpl : String) (p : Page) : Response
  deriving DecidableEq, Repr

/-- Embeds `getTitle(w, r)`: matches `r.URL.Path` against `validPath`; on a
nil match writes `http.NotFound` and returns an error (modelled as `none`),
otherwise returns the second capture group `m[2]` and writes nothing. -/
def getTitle (r : Request) : Option String × List Response :=
  match validPathSubmatch r.path with
  | none => (none, [Response.notFound])
  | some m => (some m.2, [])

/-- Embeds `renderTemplate(w, tmpl, p)`. The templates `view.html` and
`edit.html` are external artifacts outside the repository's source, so
template execution is modelled as succeeding and producing one render
response. -/
def renderTemplate (tmpl : String) (p : Page) : List Response :=
  [Response.render tmpl p]

/-- Embeds `viewHandler(w, r)`: extract the title (stop if the path is
invalid, the 404 being already written); load the page, answering
`404 "could not find page."` on failure; otherwise render `view`. -/
def viewHandler (rfail : String → Option String) (fs : FS) (r : Request) :
    List Response :=
  match getTitle r with
  | (none, resp) => resp
  | (some title, resp) =>
    match loadpage rfail fs title with
    | Except.error _ => resp ++ [Response.httpError "could not find page." 404]
    | Except.ok p => resp ++ renderTemplate "view" p

/-- Embeds `editHandler(w, r)`: extract the title (stop if invalid); load
the page, substituting `&Page{Title: title}` (body `nil`, modelled as the
empty byte list) when the load fails; render `edit` with the result. -/
def editHandler (rfail : String → Option String) (fs : FS) (r : Request) :
    List Response :=
  match getTitle r with
  | (none, resp) => resp
  | (some title, resp) =>
    match loadpage rfail fs title with
    | Except.error _ => resp ++ renderTemplate "edit" ⟨title, []⟩
    | Except.ok p => resp ++ renderTemplate "edit" p

/-- The UTF-8 bytes of a string, modelling Go's `[]byte(body)` conversion
in `saveHandler`. -/
def strBytes (s : String) : List Nat :=
  s.toUTF8.toList.map (fun b => b.toNat)

/-- Embeds `saveHandler(w, r)`: extract the title (stop if invalid); read
the `body` form field; build `&Page{Body: []byte(body), Title: title}` and
save it; on success redirect (302, `http.StatusFound`) to `/view/<title>`,
on failure answer 500 with a message built from the error. Returns the new
file system paired with the responses written. -/
def saveHandler (wfail : String → Option String) (fs : FS) (r : Request) :
    FS × List Response :=
  match getTitle r with
  | (none, resp) => (fs, resp)
  | (some title, resp) =>
    let body := formValue r "body"
    let p : Page := ⟨title, strBytes body⟩
    match Page.save wfail fs p with
    | Except.ok fs2 =>
      (fs2, resp ++ [Response.redirect ("/view/" ++ title) 302])
    | Except.error e =>
      (fs, resp ++ [Response.httpError ("soemthing weird is happening: " ++ e) 500])

/-! ### Helper lemmas about the file-system model -/

theorem fsRead_fsWrite (fs : FS) (name : String) (data : List Nat) (perm : Nat) :
    fsRead (fsWrite fs name data perm) name = some ⟨data, perm⟩ := by
  induction fs with
  | nil => simp [fsWrite, fsRead]
  | cons e rest ih =>
    obtain ⟨n, d⟩ := e
    by_cases h : n = name
    · simp [fsWrite, fsRead, h]
    · simp [fsWrite, fsRead, h, ih]

theorem fsWrite_fsWrite (fs : FS) (name : String) (d1 d2 : List Nat) (p1 p2 : Nat) :
    fsWrite (fsWrite fs name d1 p1) name d2 p2 = fsWrite fs name d2 p2 := by
  induction fs with
  | nil => simp [fsWrite]
  | cons e rest ih =>
    obtain ⟨n, d⟩ := e
    by_cases h : n = name
    · simp [fsWrite, h]
    · simp [fsWrite, h, ih]

/-! ### Helper lemmas about the path matcher -/

theorem dropLit_append (ls cs : List Char) : dropLit ls (ls ++ cs) = some cs := by
  induction ls with
  | nil => rfl
  | cons l ls ih => simp [dropLit, ih]

theorem dropLit_some (ls : List Char) :
    ∀ cs t, dropLit ls cs = some t → cs = ls ++ t := by
  induction ls with
  | nil =>
    intro cs t h
    simp only [dropLit, Option.some.injEq] at h
    simp [h]
  | cons l ls ih =>
    intro cs t h
    match cs with
    | [] => simp [dropLit] at h
    | c :: cs =>
      simp only [dropLit] at h
      split at h
      case isTrue hc => subst hc; simpa using ih cs t h
      case isFalse => exact absurd h (by simp)

theorem tryVerb_hit (v t : String) (h1 : t.data ≠ []) (h2 : t.data.all isTitleChar = true) :
    tryVerb v ("/" ++ v ++ "/" ++ t) = some (v, t) := by
  have hd : ("/" ++ v ++ "/" ++ t).data = ("/" ++ v ++ "/").data ++ t.data := by
    simp [String.data_append]
  rw [tryVerb, hd, dropLit_append]
  simp [h1, h2]

theorem tryVerb_some {v path : String} {m : String × String}
    (h : tryVerb v path = some m) :
    ∃ t : List Char, path.data = ("/" ++ v ++ "/").data ++ t ∧ t ≠ [] ∧
      t.all isTitleChar = true ∧ m = (v, String.mk t) := by
  rw [tryVerb] at h
  cases hd : dropLit ("/" ++ v ++ "/").data path.data with
  | none => rw [hd] at h; simp at h
  | some t =>
    rw [hd] at h
    refine ⟨t, dropLit_some _ _ _ hd, ?_⟩
    by_cases he : t.isEmpty
    · simp [he] at h
    · by_cases ha : t.all isTitleChar
      · simp only [he, ha, Bool.not_true, Bool.false_and, Bool.not_false, Bool.true_and,
          if_pos, Option.some.injEq] at h
        exact ⟨by simpa using he, ha, h.symm⟩
      · simp [he, ha] at h

theorem tryVerb_grammarMatch {v path : String} {m : String × String}
    (hv : v = "save" ∨ v = "edit" ∨ v = "view")
    (h : tryVerb v path = some m) : GrammarMatch path := by
  obtain ⟨t, hdata, hne, hall, _⟩ := tryVerb_some h
  refine ⟨v, String.mk t, hv, by simpa using hne, by simpa using hall, ?_⟩
  cases path with
  | mk cs => simp_all [String.ext_iff, String.data_append]

theorem validPathSubmatch_grammarMatch {path : String} {m : String × String}
    (h : validPathSubmatch path = some m) : GrammarMatch path := by
  rw [validPathSubmatch] at h
  cases hs : tryVerb "save" path with
  | some r =>
    exact tryVerb_grammarMatch (Or.inl rfl) hs
  | none =>
    rw [hs] at h
    cases he : tryVerb "edit" path with
    | some r => exact tryVerb_grammarMatch (Or.inr (Or.inl rfl)) he
    | none =>
      rw [he] at h
      exact tryVerb_grammarMatch (Or.inr (Or.inr rfl)) h

theorem validPathSubmatch_hit (v t : String)
    (hv : v = "save" ∨ v = "edit" ∨ v = "view")
    (h1 : t.data ≠ []) (h2 : t.data.all isTitleChar = true) :
    validPathSubmatch ("/" ++ v ++ "/" ++ t) = some (v, t) := by
  rcases hv with hv | hv | hv <;> subst hv <;> rw [validPathSubmatch]
  · rw [tryVerb_hit _ _ h1 h2]
  · have hs : tryVerb "save" ("/" ++ "edit" ++ "/" ++ t) = none := by
      cases h : tryVerb "save" ("/" ++ "edit" ++ "/" ++ t) with
      | none => rfl
      | some r =>
        obtain ⟨t', hdata, -, -, -⟩ := tryVerb_some h
        simp [String.data_append] at hdata
    rw [hs, tryVerb_hit _ _ h1 h2]
  · have hs : tryVerb "save" ("/" ++ "view" ++ "/" ++ t) = none := by
      cases h : tryVerb "save" ("/" ++ "view" ++ "/" ++ t) with
      | none => rfl
      | some r =>
        obtain ⟨t', hdata, -, -, -⟩ := tryVerb_some h
        simp [String.data_append] at hdata
    have he : tryVerb "edit" ("/" ++ "view" ++ "/" ++ t) = none := by
      cases h : tryVerb "edit" ("/" ++ "view" ++ "/" ++ t) with
      | none => rfl
      | some r =>
        obtain ⟨t', hdata, -, -, -⟩ := tryVerb_some h
        simp [String.data_append] at hdata
    rw [hs, he, tryVerb_hit _ _ h1 h2]

theorem grammarMatch_of_not_none {path : String}
    (h : validPathSubmatch path ≠ none) : GrammarMatch path := by
  cases hm : validPathSubmatch path with
  | none => exact absurd hm h
  | some m => exact validPathSubmatch_grammarMatch hm

theorem not_grammarMatch_of_none {path : String}
    (h : validPathSubmatch path = none) : ¬ GrammarMatch path := by
  rintro ⟨v, t, hv, h1, h2, rfl⟩
  rw [validPathSubmatch_hit v t hv h1 h2] at h
  exact Option.noConfusion h

theorem validTitle_spec {t : String} (h : validTitle t = true) :
    t.data ≠ [] ∧ t.data.all isTitleChar = true := by
  rw [validTitle, Bool.and_eq_true, Bool.not_eq_true'] at h
  exact ⟨by simpa using h.1, h.2⟩

/-! ### The claims -/

/-- Claim C1: for every valid title `t` and every byte sequence `B`
(including the empty sequence), calling `save` on `Page{Title: t, Body: B}`
and then `load(t)` succeeds and yields a `Page` whose `Body` equals `B`
(assuming the underlying disk neither fails the write nor the read). -/
theorem save_then_load_roundtrip (wfail rfail : String → Option String) (fs : FS)
    (t : String) (B : List Nat) (hv : validTitle t = true)
    (hw : wfail (pageFilename t) = none) (hr : rfail (pageFilename t) = none) :
    ∃ fs2, Page.save wfail fs ⟨t, B⟩ = Except.ok fs2 ∧
      loadpage rfail fs2 t = Except.ok ⟨t, B⟩ := by
  refine ⟨fsWrite fs (pageFilename t) B 0o600, ?_, ?_⟩
  · simp [Page.save, goWriteFile, hw]
  · simp [loadpage, goReadFile, hr, fsRead_fsWrite]

/-- Witness for C1 at `t = "t"`, `B = [7]`, on the empty file system with a
failure-free disk. -/
theorem save_then_load_roundtrip_witness :
    validTitle "t" = true ∧
    ∃ fs2, Page.save (fun _ => none) [] ⟨"t", [7]⟩ = Except.ok fs2 ∧
      loadpage (fun _ => none) fs2 "t" = Except.ok ⟨"t", [7]⟩ :=
  ⟨by decide, save_then_load_roundtrip (fun _ => none) (fun _ => none) [] "t" [7]
    (by decide) rfl rfl⟩

/-- Claim C2: for every request whose path does not match the anchored
grammar `^/(save|edit|view)/([a-zA-Z0-9]+)$`, title extraction fails and
writes the 404 (`http.NotFound`), and each of the three handlers stops
there: the only response is the 404, and `saveHandler` leaves the file
system unchanged. -/
theorem invalid_path_404 (rfail wfail : String → Option String) (fs : FS)
    (r : Request) (h : ¬ GrammarMatch r.path) :
    getTitle r = (none, [Response.notFound]) ∧
    viewHandler rfail fs r = [Response.notFound] ∧
    editHandler rfail fs r = [Response.notFound] ∧
    saveHandler wfail fs r = (fs, [Response.notFound]) := by
  have hm : validPathSubmatch r.path = none := by
    cases hm : validPathSubmatch r.path with
    | none => rfl
    | some m => exact absurd (validPathSubmatch_grammarMatch hm) h
  have ht : getTitle r = (none, [Response.notFound]) := by simp [getTitle, hm]
  exact ⟨ht, by simp [viewHandler, ht], by simp [editHandler, ht],
    by simp [saveHandler, ht]⟩

/-- Witness for C2 at the path `/view/../etc` on the empty file system. -/
theorem invalid_path_404_witness :
    getTitle ⟨"GET", "/view/../etc", fun _ => none⟩ = (none, [Response.notFound]) ∧
    viewHandler (fun _ => none) [] ⟨"GET", "/view/../etc", fun _ => none⟩ =
      [Response.notFound] ∧
    editHandler (fun _ => none) [] ⟨"GET", "/view/../etc", fun _ => none⟩ =
      [Response.notFound] ∧
    saveHandler (fun _ => none) [] ⟨"GET", "/view/../etc", fun _ => none⟩ =
      ([], [Response.notFound]) :=
  invalid_path_404 (fun _ => none) (fun _ => none) []
    ⟨"GET", "/view/../etc", fun _ => none⟩ (not_grammarMatch_of_none (by decide))

/-- Claim C3: for every title matching `^[a-zA-Z0-9]+$` and every verb in
`{view, edit, save}`, title extraction on `"/" ++ verb ++ "/" ++ title`
succeeds, writes nothing, and returns exactly the title (the second
capture group, not the verb). -/
theorem getTitle_extracts_title (mth : String) (form : String → Option String)
    (v t : String) (hv : v = "save" ∨ v = "edit" ∨ v = "view")
    (ht : validTitle t = true) :
    getTitle ⟨mth, "/" ++ v ++ "/" ++ t, form⟩ = (some t, []) := by
  obtain ⟨h1, h2⟩ := validTitle_spec ht
  simp [getTitle, validPathSubmatch_hit v t hv h1 h2]

/-- Witness for C3 at the verb `edit` and the title `Foo9`. -/
theorem getTitle_extracts_title_witness :
    validTitle "Foo9" = true ∧
    getTitle ⟨"GET", "/" ++ "edit" ++ "/" ++ "Foo9", fun _ => none⟩ =
      (some "Foo9", []) :=
  ⟨by decide, getTitle_extracts_title "GET" (fun _ => none) "edit" "Foo9"
    (Or.inr (Or.inl rfl)) (by decide)⟩

/-- Claim C4: `save` writes `p.Body` verbatim to the file
`p.Title + ".txt"` with permission mode `0600`, creating or overwriting it
(afterwards that file holds exactly `p.Body`), succeeds exactly when the
underlying write does, and returns the write's error exactly when it
fails. -/
theorem save_writes_verbatim (wfail : String → Option String) (fs : FS) (p : Page) :
    (∀ fs2, Page.save wfail fs p = Except.ok fs2 ↔
      wfail (pageFilename p.Title) = none ∧
        fs2 = fsWrite fs (pageFilename p.Title) p.Body 0o600) ∧
    (∀ e, Page.save wfail fs p = Except.error e ↔
      wfail (pageFilename p.Title) = some e) ∧
    fsRead (fsWrite fs (pageFilename p.Title) p.Body 0o600) (pageFilename p.Title) =
      some ⟨p.Body, 0o600⟩ := by
  refine ⟨?_, ?_, fsRead_fsWrite ..⟩ <;> intro x <;>
    cases hw : wfail (pageFilename p.Title) <;>
      simp [Page.save, goWriteFile, hw, eq_comm]

/-- Claim C5: when the title is valid but the page load fails, `viewHandler`
answers 404 with body `could not find page.` and nothing else (in
particular it does not render the `view` template). -/
theorem view_missing_404 (rfail : String → Option String) (fs : FS) (r : Request)
    (title : String) (ht : getTitle r = (some title, []))
    (hl : ∃ e, loadpage rfail fs title = Except.error e) :
    viewHandler rfail fs r = [Response.httpError "could not find page." 404] := by
  obtain ⟨e, he⟩ := hl
  simp [viewHandler, ht, he]

/-- Witness for C5: `GET /view/Missing` on the empty file system. -/
theorem view_missing_404_witness :
    getTitle ⟨"GET", "/view/Missing", fun _ => none⟩ = (some "Missing", []) ∧
    viewHandler (fun _ => none) [] ⟨"GET", "/view/Missing", fun _ => none⟩ =
      [Response.httpError "could not find page." 404] :=
  ⟨by decide, view_missing_404 (fun _ => none) []
    ⟨"GET", "/view/Missing", fun _ => none⟩ "Missing" (by decide) ⟨_, rfl⟩⟩

/-- Claim C6: when the title is valid but the page load fails, `editHandler`
substitutes `Page{Title: title}` with an empty body, renders the `edit`
template with it, and sends no error response. -/
theorem edit_missing_blank (rfail : String → Option String) (fs : FS) (r : Request)
    (title : String) (ht : getTitle r = (some title, []))
    (hl : ∃ e, loadpage rfail fs title = Except.error e) :
    editHandler rfail fs r = [Response.render "edit" ⟨title, []⟩] := by
  obtain ⟨e, he⟩ := hl
  simp [editHandler, ht, he, renderTemplate]

/-- Witness for C6: `GET /edit/NewPage` on the empty file system. -/
theorem edit_missing_blank_witness :
    getTitle ⟨"GET", "/edit/NewPage", fun _ => none⟩ = (some "NewPage", []) ∧
    editHandler (fun _ => none) [] ⟨"GET", "/edit/NewPage", fun _ => none⟩ =
      [Response.render "edit" ⟨"NewPage", []⟩] :=
  ⟨by decide, edit_missing_blank (fun _ => none) []
    ⟨"GET", "/edit/NewPage", fun _ => none⟩ "NewPage" (by decide) ⟨_, rfl⟩⟩

/-- Claim C7: for every valid title, `saveHandler` reads the `body` form
field (a missing field yields the empty string), persists
`Page{Title, Body}` through the page store, and answers a 302 redirect to
`/view/<title>` on success, or a 500 whose body is built from the
underlying error on failure. -/
theorem saveHandler_spec (wfail : String → Option String) (fs : FS) (r : Request)
    (title : String) (ht : getTitle r = (some title, [])) :
    (r.form "body" = none → formValue r "body" = "") ∧
    (∀ fs2, Page.save wfail fs ⟨title, strBytes (formValue r "body")⟩ = Except.ok fs2 →
      saveHandler wfail fs r = (fs2, [Response.redirect ("/view/" ++ title) 302])) ∧
    (∀ e, Page.save wfail fs ⟨title, strBytes (formValue r "body")⟩ = Except.error e →
      saveHandler wfail fs r =
        (fs, [Response.httpError ("soemthing weird is happening: " ++ e) 500])) := by
  refine ⟨fun h => by simp [formValue, h], fun fs2 h => ?_, fun e h => ?_⟩ <;>
    simp [saveHandler, ht, h]

/-- Witness for C7: `POST /save/Foo` with form field `body=bar` on the empty
file system, with a failure-free disk. -/
theorem saveHandler_spec_witness :
    getTitle ⟨"POST", "/save/Foo", fun k => if k = "body" then some "bar" else none⟩ =
      (some "Foo", []) ∧
    saveHandler (fun _ => none) []
        ⟨"POST", "/save/Foo", fun k => if k = "body" then some "bar" else none⟩ =
      ([(pageFilename "Foo", ⟨strBytes "bar", 0o600⟩)],
        [Response.redirect ("/view/" ++ "Foo") 302]) :=
  ⟨by decide, (saveHandler_spec (fun _ => none) []
    ⟨"POST", "/save/Foo", fun k => if k = "body" then some "bar" else none⟩ "Foo"
    (by decide)).2.1 _ rfl⟩

/-- Claim C8: saving the same page twice leaves the file system exactly as
after a single save (a second successful `save` returns the same state). -/
theorem save_idempotent (wfail : String → Option String) (fs : FS) (p : Page)
    (fs1 : FS) (h : Page.save wfail fs p = Except.ok fs1) :
    Page.save wfail fs1 p = Except.ok fs1 := by
  rw [Page.save, goWriteFile] at h ⊢
  cases hw : wfail (pageFilename p.Title) with
  | some e => rw [hw] at h; exact absurd h (by simp)
  | none =>
    rw [hw] at h
    simp only [Except.ok.injEq] at h
    subst h
    simp [fsWrite_fsWrite]

/-- Witness for C8 at a concrete page on the empty file system. -/
theorem save_idempotent_witness :
    Page.save (fun _ => none)
        (fsWrite [] (pageFilename "t") [7] 0o600) ⟨"t", [7]⟩ =
      Except.ok (fsWrite [] (pageFilename "t") [7] 0o600) :=
  save_idempotent (fun _ => none) [] ⟨"t", [7]⟩
    (fsWrite [] (pageFilename "t") [7] 0o600) rfl

/-- Claim C9: the map from title to on-disk filename, `title + ".txt"`, is
injective over valid titles: distinct valid titles never collide on a
filename. -/
theorem pageFilename_injective (t1 t2 : String) (h1 : validTitle t1 = true)
    (h2 : validTitle t2 = true) (h : pageFilename t1 = pageFilename t2) :
    t1 = t2 := by
  rw [pageFilename, pageFilename] at h
  cases t1; cases t2
  simp only [String.ext_iff, String.data_append] at h
  simpa [String.ext_iff] using h

/-- Witness for C9 at the title `a`. -/
theorem pageFilename_injective_witness :
    validTitle "a" = true ∧ ("a" : String) = "a" :=
  ⟨by decide, pageFilename_injective "a" "a" (by decide) (by decide) rfl⟩

/-- Claim C10: `saveHandler` never inspects the request method: its result
is the same for every method, and a request for `/save/<valid title>` under
any method persists the page and issues the 302 redirect. -/
theorem saveHandler_ignores_method (wfail : String → Option String) (fs : FS)
    (mth : String) (form : String → Option String) (title : String)
    (hv : validTitle title = true) (hw : wfail (pageFilename title) = none) :
    (∀ mth2 pth f, saveHandler wfail fs ⟨mth, pth, f⟩ =
      saveHandler wfail fs ⟨mth2, pth, f⟩) ∧
    saveHandler wfail fs ⟨mth, "/" ++ "save" ++ "/" ++ title, form⟩ =
      (fsWrite fs (pageFilename title) (strBytes ((form "body").getD "")) 0o600,
        [Response.redirect ("/view/" ++ title) 302]) := by
  obtain ⟨h1, h2⟩ := validTitle_spec hv
  refine ⟨fun mth2 pth f => rfl, ?_⟩
  have hm := validPathSubmatch_hit "save" title (Or.inl rfl) h1 h2
  simp only [show ("/" ++ "save" ++ "/" : String) = "/save/" from rfl] at hm
  simp [saveHandler, getTitle, hm, formValue, Page.save, goWriteFile, hw]

/-- Witness for C10: a `GET` request for `/save/Foo` with no form fields
still persists the page (with empty body) and redirects. -/
theorem saveHandler_ignores_method_witness :
    validTitle "Foo" = true ∧
    saveHandler (fun _ => none) []
        ⟨"GET", "/" ++ "save" ++ "/" ++ "Foo", fun _ => none⟩ =
      (fsWrite [] (pageFilename "Foo") (strBytes "") 0o600,
        [Response.redirect ("/view/" ++ "Foo") 302]) :=
  ⟨by decide, (saveHandler_ignores_method (fun _ => none) [] "GET"
    (fun _ => none) "Foo" (by decide) rfl).2⟩

end Wiki
